import Mathlib

/-!
Shallow embedding of the Aegis gateway core (Go) for specification checking.

Source files embedded here:
- internal/policy/policy.go : Policy data model, Manager.Evaluate,
  Manager.check_conditions, HashParams (json.Marshal + SHA-256)
- internal/gateway/gateway.go : Gateway.handleToolRequest, handle_reload,
  handle_health, watchPolicies, forward_to_adapter

Machine integers are modelled as Nat/Int with explicit reductions mod 2^32
where overflow matters (SHA-256).  Go float64 request/condition numbers are
modelled as rationals; every float64 is a dyadic rational, and the claims
under test depend only on order/equality of numeric values, not on binary
rounding.  Go maps are modelled as association lists with unique keys; a Go
map range loop has no specified order, so functions that iterate a map take
the enumeration order as an explicit list.
-/

set_option maxHeartbeats 1000000

namespace Aegis

/-- A Go `interface{}` value as produced by `encoding/json` / `yaml.v3`
unmarshalling.  JSON numbers always unmarshal to `float64` (`vfloat`);
YAML integer literals unmarshal to Go `int` (`vint`). -/
inductive GoVal where
  | vnull  : GoVal
  | vbool  : Bool → GoVal
  | vfloat : ℚ → GoVal
  | vint   : Int → GoVal
  | vstr   : String → GoVal
  | vlist  : List GoVal → GoVal
  | vmap   : List (String × GoVal) → GoVal

/-- A Go `map[string]interface{}`: either the nil map (the zero value, left
untouched when unmarshalling the JSON literal `null`) or a finite set of
entries, represented as an association list with unique keys. -/
inductive GoMap where
  | nil : GoMap
  | entries : List (String × GoVal) → GoMap

/-- Lookup in an association list (Go map indexing; unique keys make the
order irrelevant). -/
def assocFind (k : String) : List (String × GoVal) → Option GoVal
  | [] => none
  | (k2, v) :: rest => if k2 = k then some v else assocFind k rest

/-- `params[k]` on a Go map; indexing a nil map yields the missing-key case. -/
def mapGet (m : GoMap) (k : String) : Option GoVal :=
  match m with
  | .nil => none
  | .entries l => assocFind k l

/-- Type assertion `.(float64)`. -/
def asFloat : GoVal → Option ℚ
  | .vfloat q => some q
  | _ => none

/-- Type assertion `.(string)`. -/
def asString : GoVal → Option String
  | .vstr s => some s
  | _ => none

/-- Type assertion `.([]interface{})`. -/
def asList : GoVal → Option (List GoVal)
  | .vlist l => some l
  | _ => none

/-- The `switch v := condVal.(type)` in the `max_amount` arm of
`check_conditions`: `float64` is used as is, `int` is converted, anything
else is skipped with a warning. -/
def asCondNumber : GoVal → Option ℚ
  | .vfloat q => some q
  | .vint n => some (n : ℚ)
  | _ => none

/-- Round `q * 100` to the nearest integer, ties to even (the rounding
performed by Go `strconv` when formatting with `%.2f`), computed on the
numerator and denominator with integer arithmetic. -/
def roundHalfEven100 (q : ℚ) : Int :=
  let a : Int := q.num * 100
  let b : Int := (q.den : Int)
  let f : Int := a.fdiv b
  let rem : Int := a - f * b
  if 2 * rem < b then f
  else if b < 2 * rem then f + 1
  else if f % 2 = 0 then f else f + 1

/-- Exactly two decimal digits. -/
def pad2 (k : Nat) : String :=
  String.mk [Nat.digitChar (k / 10 % 10), Nat.digitChar (k % 10)]

/-- `fmt.Sprintf("%.2f", q)`: sign, integer part, and exactly two decimals. -/
def fmtF2 (q : ℚ) : String :=
  let n : Int := roundHalfEven100 q
  let sign : String := if q < 0 then "-" else ""
  let m : Nat := n.natAbs
  sign ++ toString (m / 100) ++ "." ++ pad2 (m % 100)

/-- The loop body of `Manager.check_conditions` (policy.go) for one
conditions-map entry: `some reason` when the `switch` arm executes
`return <reason>` (a condition failure), `none` when the iteration falls
through to the next entry (condition satisfied, unknown condition name, or
a malformed condition value skipped with a warning). -/
def checkOne (condName : String) (condVal : GoVal) (params : GoMap) : Option String :=
  if condName = "max_amount" then
    match asCondNumber condVal with
    | none => none
    | some maxAmt =>
      match (mapGet params "amount").bind asFloat with
      | none => some "Invalid amount parameter"
      | some amt =>
        if maxAmt < amt then
          some ("Amount " ++ fmtF2 amt ++ " exceeds max_amount=" ++ fmtF2 maxAmt)
        else none
  else if condName = "currencies" then
    match asList condVal with
    | none => none
    | some allowedCurrs =>
      match (mapGet params "currency").bind asString with
      | none => some "Invalid currency parameter"
      | some curr =>
        if allowedCurrs.any (fun c => (asString c).any (fun cStr => cStr = curr)) then
          none
        else some ("Currency " ++ curr ++ " not in allowed list")
  else if condName = "folder_prefix" then
    match asString condVal with
    | none => none
    | some pfx =>
      match (mapGet params "path").bind asString with
      | none => some "Invalid path parameter"
      | some pth =>
        if pth.startsWith pfx then none
        else some ("Path " ++ pth ++ " does not match required prefix " ++ pfx)
  else
    none

/-- `Manager.check_conditions` (policy.go).  The Go code ranges over the
conditions map; the enumeration order is taken as the list order here.
Returns the first failure reason, or `""` when every entry falls through. -/
def check_conditions : List (String × GoVal) → GoMap → String
  | [], _ => ""
  | (condName, condVal) :: rest, params =>
    match checkOne condName condVal params with
    | some reason => reason
    | none => check_conditions rest params

/-- `Permission` (policy.go). -/
structure Permission where
  tool : String
  actions : List String
  conditions : List (String × GoVal)

/-- `Agent` (policy.go). -/
structure Agent where
  id : String
  allow : List Permission

/-- `Policy` (policy.go). -/
structure Policy where
  version : Int
  agents : List Agent

/-- `Decision` (policy.go).  The Go zero value of `Version` is 0. -/
structure Decision where
  allow : Bool
  reason : String
  version : Int
deriving DecidableEq, Repr

/-- An enumeration of `Manager.policies` (a Go `map[string]Policy`):
filename/policy pairs in the order a particular `range` loop visits them.
Go does not fix this order; it can differ between two loops over the same
map, so `Evaluate` below is parameterised by it. -/
abbrev Snapshot := List (String × Policy)

/-- Does a permission entry match the requested tool with the action in its
allowed list (the two inner filters of `Manager.Evaluate`)? -/
def permMatches (p : Permission) (tool action : String) : Bool :=
  p.tool = tool ∧ p.actions.contains action

/-- The agent/permission loops of `Manager.Evaluate` for one policy: first
agent entry with the matching id whose `allow` list contains a permission
matching (tool, action); returns that first matching permission. -/
def findPermInAgents : List Agent → String → String → String → Option Permission
  | [], _, _, _ => none
  | a :: rest, agentID, tool, action =>
    if a.id = agentID then
      match a.allow.find? (fun p => permMatches p tool action) with
      | some p => some p
      | none => findPermInAgents rest agentID tool action
    else findPermInAgents rest agentID tool action

/-- The no-match reason string of `Manager.Evaluate`. -/
def noPolicyReason (agentID tool action : String) : String :=
  "No policy found for agent=" ++ agentID ++ ", tool=" ++ tool ++ ", action=" ++ action

/-- `Manager.Evaluate` (policy.go), over a given enumeration of the policy
map.  The first file containing a matching (agent, tool, action) permission
decides: a non-empty condition reason denies with that file's version,
otherwise the call is allowed with that file's version. -/
def Evaluate : Snapshot → String → String → String → GoMap → Decision
  | [], agentID, tool, action, _ =>
    ⟨false, noPolicyReason agentID tool action, 0⟩
  | (_, pol) :: rest, agentID, tool, action, params =>
    match findPermInAgents pol.agents agentID tool action with
    | some perm =>
      let reason := check_conditions perm.conditions params
      if reason = "" then ⟨true, "Policy allows this action", pol.version⟩
      else ⟨false, reason, pol.version⟩
    | none => Evaluate rest agentID tool action params

/-- Whether a file of the snapshot contains a matching permission for
(agent, tool, action), i.e. whether `Evaluate` would return inside it. -/
def fileMatches (agentID tool action : String) (f : String × Policy) : Bool :=
  (findPermInAgents f.2.agents agentID tool action).isSome

/-- How many files of the snapshot contain a matching permission. -/
def countMatches (s : Snapshot) (agentID tool action : String) : Nat :=
  s.countP (fileMatches agentID tool action)

/-- The first matching (version, permission) pair in snapshot order, if
any: the pair `Manager.Evaluate` decides on. -/
def firstMatch : Snapshot → String → String → String → Option (Int × Permission)
  | [], _, _, _ => none
  | (_, pol) :: rest, agentID, tool, action =>
    match findPermInAgents pol.agents agentID tool action with
    | some perm => some (pol.version, perm)
    | none => firstMatch rest agentID tool action

/-! ### `HashParams` (policy.go): `encoding/json.Marshal` followed by SHA-256

Go's `json.Marshal` serializes map entries with the keys sorted
lexicographically at every level.  Here the per-node key sort is hoisted
into a canonicalization pass `canon`, followed by a plain serializer
`marshalVal`; the composition is the sort-at-each-node serializer of Go.
Numbers: every Go float64 is a dyadic rational printed as a finite decimal;
`qToDecimal` prints that exact decimal (values whose denominator is not of
the form 2^a*5^b cannot arise from a float64 and fall back to `num/den`). -/

/-- Ordering of map entries by key (the `sort.Strings` over map keys that
`json.Marshal` performs). -/
def keyLe (x y : String × GoVal) : Prop := x.1 ≤ y.1

instance : DecidableRel keyLe := fun x y => inferInstanceAs (Decidable (x.1 ≤ y.1))

instance : IsTotal (String × GoVal) keyLe := ⟨fun x y => le_total x.1 y.1⟩

instance : IsTrans (String × GoVal) keyLe := ⟨fun _ _ _ h1 h2 => le_trans h1 h2⟩

/-- Sort map entries by key. -/
def sortKeys (l : List (String × GoVal)) : List (String × GoVal) :=
  l.insertionSort keyLe

mutual

/-- Sort the keys of every map node (the key ordering `json.Marshal`
applies while serializing). -/
def canon : GoVal → GoVal
  | .vmap l => .vmap (sortKeys (canonEntries l))
  | .vlist l => .vlist (canonList l)
  | .vnull => .vnull
  | .vbool b => .vbool b
  | .vfloat q => .vfloat q
  | .vint n => .vint n
  | .vstr s => .vstr s

def canonEntries : List (String × GoVal) → List (String × GoVal)
  | [] => []
  | (k, v) :: rest => (k, canon v) :: canonEntries rest

def canonList : List GoVal → List GoVal
  | [] => []
  | v :: rest => canon v :: canonList rest

end

/-- Number of times `p` divides `n` (`p ≥ 2`). -/
def countFactor (p n : Nat) : Nat :=
  if h : 2 ≤ p ∧ 0 < n ∧ n % p = 0 then countFactor p (n / p) + 1 else 0
termination_by n
decreasing_by exact Nat.div_lt_self h.2.1 (by omega)

/-- Drop trailing `'0'` characters. -/
def trimZeros (s : String) : String :=
  String.mk ((s.toList.reverse.dropWhile (fun c => c = '0')).reverse)

/-- Left-pad a digit string with `'0'` to length `k`. -/
def padLeftZeros (k : Nat) (s : String) : String :=
  String.mk (List.replicate (k - s.length) '0' ++ s.toList)

/-- The decimal rendering `json.Marshal` gives a float64-valued number:
exact finite decimal, no trailing zeros, no decimal point when integral. -/
def qToDecimal (q : ℚ) : String :=
  let sign : String := if q < 0 then "-" else ""
  let n := q.num.natAbs
  let d := q.den
  let a := countFactor 2 d
  let b := countFactor 5 d
  if 2 ^ a * 5 ^ b = d then
    let k := max a b
    let scaled := n * 10 ^ k / d
    let ip := scaled / 10 ^ k
    let fp := scaled % 10 ^ k
    if fp = 0 then sign ++ toString ip
    else sign ++ toString ip ++ "." ++ trimZeros (padLeftZeros k (toString fp))
  else sign ++ toString n ++ "/" ++ toString d

/-- Escape one character the way Go `encoding/json` does (with its default
HTML escaping of `<`, `>`, `&`). -/
def escChar (c : Char) : String :=
  if c = '"' then "\\\""
  else if c = '\\' then "\\\\"
  else if c = '\n' then "\\n"
  else if c = '\r' then "\\r"
  else if c = '\t' then "\\t"
  else if c = '<' then "\\u003c"
  else if c = '>' then "\\u003e"
  else if c = '&' then "\\u0026"
  else if c.toNat < 32 then
    "\\u00" ++ String.mk [Nat.digitChar (c.toNat / 16), Nat.digitChar (c.toNat % 16)]
  else String.singleton c

/-- A JSON string literal. -/
def jsonQuote (s : String) : String :=
  "\"" ++ String.join (s.toList.map escChar) ++ "\""

mutual

/-- Serialize a canonicalized value to JSON text (entry order preserved:
`canon` has already sorted every map node). -/
def marshalVal : GoVal → String
  | .vnull => "null"
  | .vbool b => if b then "true" else "false"
  | .vfloat q => qToDecimal q
  | .vint n => toString n
  | .vstr s => jsonQuote s
  | .vlist l => "[" ++ marshalListStr l ++ "]"
  | .vmap l => "\x7b" ++ marshalEntriesStr l ++ "\x7d"

def marshalListStr : List GoVal → String
  | [] => ""
  | [v] => marshalVal v
  | v :: rest => marshalVal v ++ "," ++ marshalListStr rest

def marshalEntriesStr : List (String × GoVal) → String
  | [] => ""
  | [(k, v)] => jsonQuote k ++ ":" ++ marshalVal v
  | (k, v) :: rest => jsonQuote k ++ ":" ++ marshalVal v ++ "," ++ marshalEntriesStr rest

end

/-- `encoding/json.Marshal` on an `interface{}` value. -/
def Marshal (v : GoVal) : String := marshalVal (canon v)

/-- UTF-8 encoding of one character. -/
def utf8Char (c : Char) : List Nat :=
  let n := c.toNat
  if n < 128 then [n]
  else if n < 2048 then [192 + n / 64, 128 + n % 64]
  else if n < 65536 then [224 + n / 4096, 128 + n / 64 % 64, 128 + n % 64]
  else [240 + n / 262144, 128 + n / 4096 % 64, 128 + n / 64 % 64, 128 + n % 64]

/-- The UTF-8 bytes of a string (the `[]byte` of a Go string). -/
def utf8Bytes (s : String) : List Nat := s.toList.flatMap utf8Char

/-! SHA-256 (`crypto/sha256.Sum256`), over byte lists, words as `Nat`
reduced mod 2^32.  The round constants are the fractional parts of the cube
roots of the first 64 primes and the initial state the fractional parts of
the square roots of the first 8 primes, computed here by integer root
extraction rather than transcribed. -/

/-- 2^32. -/
def w32 : Nat := 4294967296

/-- Reduce to a 32-bit word. -/
def wMod (x : Nat) : Nat := x % w32

/-- Rotate a 32-bit word right by `n`. -/
def rotr (n x : Nat) : Nat := (x >>> n) ||| wMod (x <<< (32 - n))

def ssig0 (x : Nat) : Nat := rotr 7 x ^^^ rotr 18 x ^^^ (x >>> 3)

def ssig1 (x : Nat) : Nat := rotr 17 x ^^^ rotr 19 x ^^^ (x >>> 10)

def bsig0 (x : Nat) : Nat := rotr 2 x ^^^ rotr 13 x ^^^ rotr 22 x

def bsig1 (x : Nat) : Nat := rotr 6 x ^^^ rotr 11 x ^^^ rotr 25 x

def chFn (e f g : Nat) : Nat := (e &&& f) ^^^ ((e ^^^ 4294967295) &&& g)

def majFn (a b c : Nat) : Nat := (a &&& b) ^^^ (a &&& c) ^^^ (b &&& c)

/-- One step of binary search for the integer cube root. -/
def icbrtStep (n r i : Nat) : Nat := if (r + 2 ^ i) ^ 3 ≤ n then r + 2 ^ i else r

/-- Integer cube root (largest `r` with `r^3 ≤ n`, for `n < 2^192`). -/
def icbrt (n : Nat) : Nat := ((List.range 64).reverse).foldl (icbrtStep n) 0

/-- The first 64 primes. -/
def sha256Primes : List Nat :=
  [2, 3, 5, 7, 11, 13, 17, 19, 23, 29, 31, 37, 41, 43, 47, 53,
   59, 61, 67, 71, 73, 79, 83, 89, 97, 101, 103, 107, 109, 113, 127, 131,
   137, 139, 149, 151, 157, 163, 167, 173, 179, 181, 191, 193, 197, 199, 211, 223,
   227, 229, 233, 239, 241, 251, 257, 263, 269, 271, 277, 281, 283, 293, 307, 311]

/-- The 64 SHA-256 round constants. -/
def shaK : List Nat := sha256Primes.map (fun p => wMod (icbrt (p * 2 ^ 96)))

/-- One initial-state word: fractional sqrt bits of a prime. -/
def h0w (p : Nat) : Nat := wMod (Nat.sqrt (p * 2 ^ 64))

/-- The SHA-256 working state: eight 32-bit words. -/
structure Hash8 where
  a : Nat
  b : Nat
  c : Nat
  d : Nat
  e : Nat
  f : Nat
  g : Nat
  h : Nat

/-- The SHA-256 initial state. -/
def initState : Hash8 :=
  ⟨h0w 2, h0w 3, h0w 5, h0w 7, h0w 11, h0w 13, h0w 17, h0w 19⟩

/-- One compression round. -/
def shaRound (s : Hash8) (kt wt : Nat) : Hash8 :=
  let t1 := wMod (s.h + bsig1 s.e + chFn s.e s.f s.g + kt + wt)
  let t2 := wMod (bsig0 s.a + majFn s.a s.b s.c)
  ⟨wMod (t1 + t2), s.a, s.b, s.c, wMod (s.d + t1), s.e, s.f, s.g⟩

/-- The message schedule `W_t` of a 16-word chunk. -/
def msgSchedule (chunk : List Nat) (t : Nat) : Nat :=
  if h : t < 16 then chunk.getD t 0
  else
    wMod (ssig1 (msgSchedule chunk (t - 2)) + msgSchedule chunk (t - 7) +
      ssig0 (msgSchedule chunk (t - 15)) + msgSchedule chunk (t - 16))
termination_by t
decreasing_by all_goals omega

/-- Compress one chunk into the state. -/
def processChunk (s : Hash8) (chunk : List Nat) : Hash8 :=
  let fin := (List.range 64).foldl
    (fun st t => shaRound st (shaK.getD t 0) (msgSchedule chunk t)) s
  ⟨wMod (s.a + fin.a), wMod (s.b + fin.b), wMod (s.c + fin.c), wMod (s.d + fin.d),
   wMod (s.e + fin.e), wMod (s.f + fin.f), wMod (s.g + fin.g), wMod (s.h + fin.h)⟩

/-- The eight big-endian length bytes of the padding. -/
def lenBytesBE (len : Nat) : List Nat :=
  [56, 48, 40, 32, 24, 16, 8, 0].map (fun sh => ((8 * len) >>> sh) % 256)

/-- SHA-256 padding: `0x80`, zeros to 56 mod 64, 64-bit message length. -/
def padMessage (msg : List Nat) : List Nat :=
  let z := (120 - (msg.length + 1) % 64) % 64
  msg ++ 128 :: (List.replicate z 0 ++ lenBytesBE msg.length)

/-- Big-endian 4-byte groups to 32-bit words. -/
def bytesToWords : List Nat → List Nat
  | b0 :: b1 :: b2 :: b3 :: rest =>
    (((b0 * 256 + b1) * 256 + b2) * 256 + b3) :: bytesToWords rest
  | _ => []

/-- Split padded bytes into 16-word chunks. -/
def chunks64 (l : List Nat) : List (List Nat) :=
  if h : l = [] then [] else bytesToWords (l.take 64) :: chunks64 (l.drop 64)
termination_by l.length
decreasing_by
  simp only [List.length_drop]
  have : l.length ≠ 0 := fun hn => h (List.length_eq_zero.mp hn)
  omega

/-- The final SHA-256 state of a byte message. -/
def shaState (msg : List Nat) : Hash8 :=
  (chunks64 (padMessage msg)).foldl processChunk initState

/-- The four big-endian bytes of a 32-bit word. -/
def wordBytes (w : Nat) : List Nat :=
  [w / 16777216 % 256, w / 65536 % 256, w / 256 % 256, w % 256]

/-- The 32 digest bytes. -/
def digestBytes (s : Hash8) : List Nat :=
  wordBytes s.a ++ wordBytes s.b ++ wordBytes s.c ++ wordBytes s.d ++
  wordBytes s.e ++ wordBytes s.f ++ wordBytes s.g ++ wordBytes s.h

/-- Two lowercase hex characters of a byte. -/
def byteHexChars (b : Nat) : List Char :=
  [Nat.digitChar (b / 16 % 16), Nat.digitChar (b % 16)]

/-- `hex.EncodeToString`. -/
def hexString (bytes : List Nat) : String := String.mk (bytes.flatMap byteHexChars)

/-- `hex.EncodeToString(sha256.Sum256(msg))`. -/
def sha256hex (msg : List Nat) : String := hexString (digestBytes (shaState msg))

/-- The `interface{}` value `json.Marshal` receives for a
`map[string]interface{}`: a nil map marshals as `null`. -/
def goMapVal : GoMap → GoVal
  | .nil => .vnull
  | .entries l => .vmap l

/-- `HashParams` (policy.go): SHA-256 hex digest of the canonical JSON
serialization of the params map. -/
def HashParams (params : GoMap) : String :=
  sha256hex (utf8Bytes (Marshal (goMapVal params)))

/-! ### Gateway (gateway.go) -/

/-- A response body on the wire. -/
inductive RespBody where
  | errJson (err : String) (reason : String)
  | statusJson (s : String)
  | text (s : String)
  | relayed

/-- An HTTP response as written by the gateway handlers: status code,
Content-Type header, body. -/
structure Response where
  status : Nat
  contentType : String
  body : RespBody

/-- The per-decision fields of the audit record `telemetry.LogDecision`
emits (timestamp and trace id are ambient, not decision data). -/
structure AuditRecord where
  agent_id : String
  tool : String
  action : String
  reason : String
  params_hash : String
  parent_agent : String
  decision_allow : Bool
  policy_version : Int

/-- The request body as seen through `io.ReadAll` + `json.Unmarshal`:
read failure, bytes that are not valid JSON, or a valid JSON value. -/
inductive ReqBody where
  | readError
  | notJson
  | jsonVal (v : GoVal)

/-- An inbound `POST /tools/{tool}/{action}` request. -/
structure Request where
  agentID : String
  parentAgent : String
  tool : String
  action : String
  body : ReqBody

/-- The adapter's behaviour on a forwarded POST (external process):
transport error / timeout, a response whose body fails to read, or a
response with a status code whose body is relayed. -/
inductive AdapterBehavior where
  | transportError (msg : String)
  | replyReadError
  | reply (status : Nat)

/-- Everything observable about one `handleToolRequest` run: the response,
the audit records emitted (in order), whether `Manager.Evaluate` ran, and
the target URLs of outbound adapter POSTs (in order). -/
structure GatewayOutcome where
  response : Response
  audits : List AuditRecord
  policyEvaluated : Bool
  forwards : List String

/-- `json.Unmarshal(body, &m)` with `m : map[string]interface{}`: succeeds
only when the top-level JSON value is an object (filling the map) or the
literal `null` (leaving the map nil); an array, string, number, or boolean
is an unmarshal type error. -/
def unmarshalMap : GoVal → Option GoMap
  | .vmap l => some (.entries l)
  | .vnull => some .nil
  | _ => none

/-- `strings.TrimSuffix(s, "/")`: drop one trailing slash if present. -/
def trimSlash (s : String) : String :=
  if s.endsWith "/" then s.dropRight 1 else s

/-- Adapter map lookup (`g.adapters[toolName]`). -/
def lookupAdapter (t : String) : List (String × String) → Option String
  | [] => none
  | (k, v) :: rest => if k = t then some v else lookupAdapter t rest

/-- The Content-Type the gateway sets on its own responses. -/
def ctJson : String := "application/json"

/-- The tail of `handleToolRequest` after the body parses: hash the params,
evaluate policy, emit the audit record, then deny, or look up the adapter
and forward. -/
def processParams (snap : Snapshot) (adapters : List (String × String))
    (ab : AdapterBehavior) (agentID parentAgent tool action : String)
    (params : GoMap) : GatewayOutcome :=
  let ph := HashParams params
  let d := Evaluate snap agentID tool action params
  let record : AuditRecord := ⟨agentID, tool, action, d.reason, ph, parentAgent, d.allow, d.version⟩
  if !d.allow then
    ⟨⟨403, ctJson, .errJson "PolicyViolation" d.reason⟩, [record], true, []⟩
  else
    match lookupAdapter tool adapters with
    | none =>
      ⟨⟨404, ctJson, .errJson "AdapterNotFound" ("No adapter configured for tool: " ++ tool)⟩,
       [record], true, []⟩
    | some base =>
      let url := trimSlash base ++ "/" ++ action
      match ab with
      | .transportError msg =>
        ⟨⟨502, ctJson, .errJson "AdapterError" msg⟩, [record], true, [url]⟩
      | .replyReadError =>
        ⟨⟨502, ctJson, .errJson "AdapterError" "Failed to read adapter response"⟩,
         [record], true, [url]⟩
      | .reply status =>
        ⟨⟨status, ctJson, .relayed⟩, [record], true, [url]⟩

/-- `Gateway.handleToolRequest` (gateway.go). -/
def handleToolRequest (snap : Snapshot) (adapters : List (String × String))
    (ab : AdapterBehavior) (req : Request) : GatewayOutcome :=
  if req.agentID = "" then
    ⟨⟨400, ctJson, .errJson "MissingHeader" "X-Agent-ID header is required"⟩, [], false, []⟩
  else
    match req.body with
    | .readError =>
      ⟨⟨400, ctJson, .errJson "InvalidRequest" "Failed to read request body"⟩, [], false, []⟩
    | .notJson =>
      ⟨⟨400, ctJson, .errJson "InvalidRequest" "Request body must be valid JSON"⟩, [], false, []⟩
    | .jsonVal v =>
      match unmarshalMap v with
      | none =>
        ⟨⟨400, ctJson, .errJson "InvalidRequest" "Request body must be valid JSON"⟩, [], false, []⟩
      | some params =>
        processParams snap adapters ab req.agentID req.parentAgent req.tool req.action params

/-- `Gateway.handle_health` (gateway.go). -/
def handle_health : Response := ⟨200, ctJson, .statusJson "healthy"⟩

/-- `Gateway.handle_reload` (gateway.go), parameterised by the result of
`policyManager.Reload()` (`none` = success).  On failure the handler calls
`http.Error` with a hand-built string: `http.Error` writes Content-Type
`text/plain; charset=utf-8` and appends a newline, and the second field of
the hand-built object is named `message`, not `reason`. -/
def handle_reload (reloadResult : Option String) : Response :=
  match reloadResult with
  | some msg =>
    ⟨500, "text/plain; charset=utf-8",
     .text ("\x7b\"error\":\"ReloadFailed\",\"message\":\"" ++ msg ++ "\"\x7d\n")⟩
  | none => ⟨200, ctJson, .statusJson "reloaded"⟩

/-- fsnotify operation bit: Create. -/
def opCreate : Nat := 1

/-- fsnotify operation bit: Write. -/
def opWrite : Nat := 2

/-- fsnotify operation bit: Remove. -/
def opRemove : Nat := 4

/-- fsnotify operation bit: Rename. -/
def opRename : Nat := 8

/-- fsnotify operation bit: Chmod. -/
def opChmod : Nat := 16

/-- The event filter of `Gateway.watchPolicies`: a reload is initiated iff
the event has the Write bit or the Create bit
(`event.Op&fsnotify.Write == fsnotify.Write || event.Op&fsnotify.Create == fsnotify.Create`). -/
def watchTriggersReload (op : Nat) : Bool :=
  (op &&& opWrite == opWrite) || (op &&& opCreate == opCreate)

/-! ### Auxiliary definitions for the specification statements -/

/-- Strict ordering of map entries by key. -/
def keyLt (x y : String × GoVal) : Prop := x.1 < y.1

instance : IsAntisymm (String × GoVal) keyLt :=
  ⟨fun _ _ h1 h2 => absurd (lt_trans h1 h2) (lt_irrefl _)⟩

/-- Deep equality of two params maps as JSON values: equal canonical forms
(the same keys bound to deep-equal values, at every nesting level; entry
order irrelevant). -/
def ParamsEqv (p q : GoMap) : Prop := canon (goMapVal p) = canon (goMapVal q)

/-- A conditions-map entry the evaluator skips: an unrecognized condition
name, or a built-in condition name whose value has the wrong type. -/
def InertCond (condName : String) (v : GoVal) : Prop :=
  (condName ≠ "max_amount" ∧ condName ≠ "currencies" ∧ condName ≠ "folder_prefix") ∨
  (condName = "max_amount" ∧ asCondNumber v = none) ∨
  (condName = "currencies" ∧ asList v = none) ∨
  (condName = "folder_prefix" ∧ asString v = none)

/-- All eight state words fit in 32 bits. -/
def AllLt32 (s : Hash8) : Prop :=
  s.a < w32 ∧ s.b < w32 ∧ s.c < w32 ∧ s.d < w32 ∧
  s.e < w32 ∧ s.f < w32 ∧ s.g < w32 ∧ s.h < w32

/-- The digest state read as one base-2^32 number. -/
def digestNat (s : Hash8) : Nat :=
  ((((((s.a * w32 + s.b) * w32 + s.c) * w32 + s.d) * w32 +
    s.e) * w32 + s.f) * w32 + s.g) * w32 + s.h

/-- A family of pairwise non-equivalent params maps (ever longer string
values under one key), used to exhibit the pigeonhole collision. -/
def strParams (n : Nat) : GoMap :=
  .entries [("k", .vstr (String.mk (List.replicate n 'a')))]

/-- A one-file policy whose single agent allows payments/create with no
conditions, tagged with the given version. -/
def polAllowV (ver : Int) : Policy :=
  ⟨ver, [⟨"finance-agent", [⟨"payments", ["create"], []⟩]⟩]⟩

/-- The hex alphabet `hex.EncodeToString` draws from. -/
def hexAlphabet : List Char := "0123456789abcdef".data

/-! ### Helper lemmas -/

theorem checkOne_inert (condName : String) (v : GoVal) (params : GoMap)
    (h : InertCond condName v) : checkOne condName v params = none := by
  rcases h with ⟨h1, h2, h3⟩ | ⟨h1, h2⟩ | ⟨h1, h2⟩ | ⟨h1, h2⟩
  · simp [checkOne, h1, h2, h3]
  · simp [checkOne, h1, h2]
  · simp [checkOne, h1, h2]
  · simp [checkOne, h1, h2]

theorem check_conditions_insert_inert (l1 l2 : List (String × GoVal)) (params : GoMap)
    (condName : String) (v : GoVal) (h : InertCond condName v) :
    check_conditions (l1 ++ (condName, v) :: l2) params = check_conditions (l1 ++ l2) params := by
  induction l1 with
  | nil => simp [check_conditions, checkOne_inert _ _ _ h]
  | cons kv rest ih =>
    obtain ⟨k, w⟩ := kv
    simp only [List.cons_append, check_conditions]
    cases checkOne k w params <;> simp [ih]

/-! ### Claim C3 -/

/-- C3: the claim states that rename and remove events within the policy
directory initiate a policy reload, in addition to write and create events.
The watcher loop of `Gateway.watchPolicies` reloads only when the event has
the Write bit or the Create bit; an event whose operation is Rename or
Remove is ignored, so deleting or renaming a policy file leaves the stale
policies loaded until some other event or a manual reload. -/
theorem C3_watcher_ignores_rename_remove :
    watchTriggersReload opRename = false ∧ watchTriggersReload opRemove = false ∧
    watchTriggersReload opWrite = true ∧ watchTriggersReload opCreate = true := by
  decide

/-! ### Claim C9 -/

/-- C9: condition entries never cause a deny by being malformed or unknown:
inserting an entry with an unrecognized name, or a built-in name whose
value has the wrong type, anywhere into the conditions map leaves the
result of `check_conditions` unchanged; a missing or ill-typed request
field referenced by a well-formed active condition denies with reason
`Invalid <field> parameter`. -/
theorem C9_inert_conditions :
    (∀ (l1 l2 : List (String × GoVal)) (params : GoMap) (condName : String) (v : GoVal),
       InertCond condName v →
       check_conditions (l1 ++ (condName, v) :: l2) params =
         check_conditions (l1 ++ l2) params) ∧
    (∀ (mv : GoVal) (m : ℚ) (rest : List (String × GoVal)) (params : GoMap),
       asCondNumber mv = some m → (mapGet params "amount").bind asFloat = none →
       check_conditions (("max_amount", mv) :: rest) params = "Invalid amount parameter") ∧
    (∀ (cv : GoVal) (cl : List GoVal) (rest : List (String × GoVal)) (params : GoMap),
       asList cv = some cl → (mapGet params "currency").bind asString = none →
       check_conditions (("currencies", cv) :: rest) params = "Invalid currency parameter") ∧
    (∀ (pv : GoVal) (pfx : String) (rest : List (String × GoVal)) (params : GoMap),
       asString pv = some pfx → (mapGet params "path").bind asString = none →
       check_conditions (("folder_prefix", pv) :: rest) params = "Invalid path parameter") := by
  refine ⟨check_conditions_insert_inert, ?_, ?_, ?_⟩
  · intro mv m rest params hm hnone
    simp [check_conditions, checkOne, hm, hnone]
  · intro cv cl rest params hc hnone
    simp [check_conditions, checkOne, hc, hnone]
  · intro pv pfx rest params hp hnone
    simp [check_conditions, checkOne, hp, hnone]

/-- Witness for C9 at concrete inputs: an unknown condition name and a
boolean-valued `max_amount` are both inert, and an active `max_amount`
over params lacking a numeric `amount` denies with the fixed reason. -/
theorem C9_inert_conditions_witness :
    check_conditions ([("max_amount", .vint 5)] ++ ("rate_limit", .vstr "x") :: [])
        (.entries [("amount", .vfloat 3)]) =
      check_conditions ([("max_amount", .vint 5)] ++ []) (.entries [("amount", .vfloat 3)]) ∧
    check_conditions ([] ++ ("max_amount", .vbool true) :: [("currencies", .vlist [.vstr "USD"])])
        (.entries [("currency", .vstr "USD")]) =
      check_conditions ([] ++ [("currencies", .vlist [.vstr "USD"])])
        (.entries [("currency", .vstr "USD")]) ∧
    check_conditions [("max_amount", .vint 5)] (.entries [("amount", .vstr "three")]) =
      "Invalid amount parameter" ∧
    check_conditions [("currencies", .vlist [.vstr "USD"])] (.entries []) =
      "Invalid currency parameter" ∧
    check_conditions [("folder_prefix", .vstr "/hr-docs/")] (.entries [("path", .vbool true)]) =
      "Invalid path parameter" := by
  refine ⟨?_, ?_, ?_, ?_, ?_⟩
  · exact C9_inert_conditions.1 [("max_amount", .vint 5)] [] _ _ _ (Or.inl (by decide))
  · exact C9_inert_conditions.1 [] [("currencies", .vlist [.vstr "USD"])] _ _ _
      (Or.inr (Or.inl ⟨rfl, rfl⟩))
  · exact C9_inert_conditions.2.1 (.vint 5) 5 [] _ rfl rfl
  · exact C9_inert_conditions.2.2.1 (.vlist [.vstr "USD"]) [.vstr "USD"] [] _ rfl rfl
  · exact C9_inert_conditions.2.2.2 (.vstr "/hr-docs/") "/hr-docs/" [] _ rfl rfl

/-! ### Claim C10 -/

/-- C10: with a non-empty `X-Agent-ID`, a body that is valid JSON but not a
JSON object — an array, string, number, or boolean — yields a 400
InvalidRequest response with no audit record and no policy evaluation,
while the single JSON literal `null` is accepted and proceeds through
hashing and policy evaluation with a nil (empty) parameter map. -/
theorem C10_non_object_bodies (snap : Snapshot) (adapters : List (String × String))
    (ab : AdapterBehavior) (agentID parentAgent tool action : String)
    (hA : agentID ≠ "") :
    (∀ v : GoVal, unmarshalMap v = none →
       handleToolRequest snap adapters ab ⟨agentID, parentAgent, tool, action, .jsonVal v⟩ =
         ⟨⟨400, ctJson, .errJson "InvalidRequest" "Request body must be valid JSON"⟩,
          [], false, []⟩) ∧
    (∀ l, unmarshalMap (.vlist l) = none) ∧
    (∀ s, unmarshalMap (.vstr s) = none) ∧
    (∀ q, unmarshalMap (.vfloat q) = none) ∧
    (∀ b, unmarshalMap (.vbool b) = none) ∧
    (handleToolRequest snap adapters ab ⟨agentID, parentAgent, tool, action, .jsonVal .vnull⟩ =
       processParams snap adapters ab agentID parentAgent tool action .nil) ∧
    (∀ k, mapGet .nil k = none) := by
  refine ⟨?_, fun l => rfl, fun s => rfl, fun q => rfl, fun b => rfl, ?_, fun k => rfl⟩
  · intro v hv
    simp [handleToolRequest, hA, hv]
  · simp [handleToolRequest, hA, unmarshalMap]

/-- Witness for C10: a concrete array body is rejected without audit while
a concrete null body reaches policy evaluation over the nil map. -/
theorem C10_non_object_bodies_witness :
    handleToolRequest [] [] (.reply 200)
        ⟨"finance-agent", "", "payments", "create", .jsonVal (.vlist [.vfloat 1])⟩ =
      ⟨⟨400, ctJson, .errJson "InvalidRequest" "Request body must be valid JSON"⟩,
       [], false, []⟩ ∧
    handleToolRequest [] [] (.reply 200)
        ⟨"finance-agent", "", "payments", "create", .jsonVal .vnull⟩ =
      processParams [] [] (.reply 200) "finance-agent" "" "payments" "create" .nil := by
  have h := C10_non_object_bodies [] [] (.reply 200) "finance-agent" "" "payments" "create"
    (by decide)
  exact ⟨h.1 (.vlist [.vfloat 1]) rfl, h.2.2.2.2.2.1⟩

/-! ### Claim C8 -/

theorem max_amount_reason_ne_empty (a m : String) :
    ("Amount " ++ a ++ " exceeds max_amount=" ++ m) ≠ "" := by
  intro h
  have h2 := congrArg String.length h
  simp only [String.length_append] at h2
  have l1 : ("Amount " : String).length = 7 := rfl
  have l2 : (" exceeds max_amount=" : String).length = 20 := rfl
  have l3 : ("" : String).length = 0 := rfl
  omega

/-- C8: for a permission carrying a `max_amount` condition, an `amount`
exactly equal to `max_amount` is allowed (the comparison is strict `>`),
while an amount strictly greater is denied with reason
`Amount <a> exceeds max_amount=<m>`, both numbers formatted with exactly
two decimals. -/
theorem C8_max_amount_boundary (mv : GoVal) (m amt : ℚ) (params : GoMap)
    (fn agentID tool action : String) (ver : Int)
    (hm : asCondNumber mv = some m)
    (ha : (mapGet params "amount").bind asFloat = some amt) :
    (amt = m → check_conditions [("max_amount", mv)] params = "") ∧
    (m < amt → check_conditions [("max_amount", mv)] params =
        "Amount " ++ fmtF2 amt ++ " exceeds max_amount=" ++ fmtF2 m) ∧
    (amt = m →
      Evaluate [(fn, ⟨ver, [⟨agentID, [⟨tool, [action], [("max_amount", mv)]⟩]⟩]⟩)]
          agentID tool action params = ⟨true, "Policy allows this action", ver⟩) ∧
    (m < amt →
      Evaluate [(fn, ⟨ver, [⟨agentID, [⟨tool, [action], [("max_amount", mv)]⟩]⟩]⟩)]
          agentID tool action params =
        ⟨false, "Amount " ++ fmtF2 amt ++ " exceeds max_amount=" ++ fmtF2 m, ver⟩) ∧
    (∀ q : ℚ, ∃ intPart : String,
       fmtF2 q = intPart ++ "." ++ pad2 ((roundHalfEven100 q).natAbs % 100) ∧
       (pad2 ((roundHalfEven100 q).natAbs % 100)).length = 2) := by
  have hfind : findPermInAgents [⟨agentID, [⟨tool, [action], [("max_amount", mv)]⟩]⟩]
      agentID tool action = some ⟨tool, [action], [("max_amount", mv)]⟩ := by
    simp [findPermInAgents, permMatches, List.find?]
  have hpass : amt = m → check_conditions [("max_amount", mv)] params = "" := by
    intro he
    subst he
    simp [check_conditions, checkOne, hm, ha]
  have hfail : m < amt → check_conditions [("max_amount", mv)] params =
      "Amount " ++ fmtF2 amt ++ " exceeds max_amount=" ++ fmtF2 m := by
    intro hlt
    simp [check_conditions, checkOne, hm, ha, hlt]
  refine ⟨hpass, hfail, ?_, ?_, ?_⟩
  · intro he
    simp [Evaluate, hfind, hpass he]
  · intro hlt
    simp [Evaluate, hfind, hfail hlt, max_amount_reason_ne_empty]
  · intro q
    exact ⟨(if q < 0 then "-" else "") ++ toString ((roundHalfEven100 q).natAbs / 100),
      rfl, rfl⟩

/-- Witness for C8: the literal boundary from the end-to-end scenarios,
`max_amount = 5000`: an amount of 5000 is allowed, 10000 is denied with
the two-decimal reason of the Go test suite. -/
theorem C8_max_amount_boundary_witness :
    check_conditions [("max_amount", .vint 5000)] (.entries [("amount", .vfloat 5000)]) = "" ∧
    check_conditions [("max_amount", .vint 5000)] (.entries [("amount", .vfloat 10000)]) =
      "Amount 10000.00 exceeds max_amount=5000.00" := by
  have h1 := (C8_max_amount_boundary (.vint 5000) 5000 5000
    (.entries [("amount", .vfloat 5000)]) "p.yaml" "finance-agent" "payments" "create" 1
    rfl rfl).1 rfl
  have h2 := (C8_max_amount_boundary (.vint 5000) 5000 10000
    (.entries [("amount", .vfloat 10000)]) "p.yaml" "finance-agent" "payments" "create" 1
    rfl rfl).2.1 (by norm_num)
  refine ⟨h1, ?_⟩
  rw [h2]
  decide

/-! ### Claim C2 -/

theorem processParams_audits_length (snap : Snapshot) (adapters : List (String × String))
    (ab : AdapterBehavior) (agentID parentAgent tool action : String) (params : GoMap) :
    (processParams snap adapters ab agentID parentAgent tool action params).audits.length = 1 := by
  simp only [processParams]
  split
  · rfl
  · split
    · rfl
    · cases ab <;> rfl

/-- C2 counterexample: a request with a non-empty `X-Agent-ID` whose body
does not parse as JSON emits zero audit records, not one: the handler
returns 400 before `telemetry.LogDecision` runs. -/
theorem C2_counterexample :
    ("finance-agent" : String) ≠ "" ∧
    (handleToolRequest [] [] (.reply 200)
        ⟨"finance-agent", "", "payments", "create", .notJson⟩).audits.length = 0 := by
  exact ⟨by decide, rfl⟩

/-- C2 amended: exactly one AuditRecord is emitted for every request whose
`X-Agent-ID` is non-empty and whose body is read successfully and
unmarshals as a JSON object or `null`; a request whose body fails to read
or fails to parse emits no audit record. -/
theorem C2_audit_iff_parse (snap : Snapshot) (adapters : List (String × String))
    (ab : AdapterBehavior) (req : Request) (hA : req.agentID ≠ "") :
    (∀ v params, req.body = .jsonVal v → unmarshalMap v = some params →
       (handleToolRequest snap adapters ab req).audits.length = 1) ∧
    ((req.body = .readError ∨ req.body = .notJson ∨
        ∃ v, req.body = .jsonVal v ∧ unmarshalMap v = none) →
       (handleToolRequest snap adapters ab req).audits = []) := by
  obtain ⟨aid, pa, tool, action, body⟩ := req
  simp only [Request.agentID] at hA
  constructor
  · intro v params hb hum
    simp only at hb
    subst hb
    simp [handleToolRequest, hA, hum, processParams_audits_length]
  · intro h
    rcases h with hb | hb | ⟨v, hb, hum⟩
    · simp only at hb
      subst hb
      simp [handleToolRequest, hA]
    · simp only at hb
      subst hb
      simp [handleToolRequest, hA]
    · simp only at hb
      subst hb
      simp [handleToolRequest, hA, hum]

/-- Witness for C2 amended: the allowed-payment request of the test suite
emits exactly one audit record, and an invalid-JSON body emits none. -/
theorem C2_audit_iff_parse_witness :
    (handleToolRequest [("test-policy.yaml", polAllowV 1)] [("payments", "http://adapter")]
        (.reply 200)
        ⟨"finance-agent", "", "payments", "create",
         .jsonVal (.vmap [("amount", .vfloat 1000)])⟩).audits.length = 1 ∧
    (handleToolRequest [("test-policy.yaml", polAllowV 1)] [("payments", "http://adapter")]
        (.reply 200)
        ⟨"finance-agent", "", "payments", "create", .readError⟩).audits = [] := by
  have h := C2_audit_iff_parse [("test-policy.yaml", polAllowV 1)]
    [("payments", "http://adapter")] (.reply 200)
    ⟨"finance-agent", "", "payments", "create", .jsonVal (.vmap [("amount", .vfloat 1000)])⟩
    (by decide)
  have h2 := C2_audit_iff_parse [("test-policy.yaml", polAllowV 1)]
    [("payments", "http://adapter")] (.reply 200)
    ⟨"finance-agent", "", "payments", "create", .readError⟩ (by decide)
  exact ⟨h.1 (.vmap [("amount", .vfloat 1000)]) (.entries [("amount", .vfloat 1000)]) rfl rfl,
    h2.2 (Or.inl rfl)⟩

/-! ### Claim C4 -/

/-- C4: a denied decision yields a 403 PolicyViolation response with no
outbound adapter POST, and the outcome of a denied request does not depend
on the adapter map or the adapter at all (the policy check precedes the
adapter-existence lookup); the 404 AdapterNotFound body occurs exactly when
the decision allows and the tool is absent from the adapter map. -/
theorem C4_policy_precedes_adapter (snap : Snapshot) (adapters : List (String × String))
    (ab : AdapterBehavior) (agentID parentAgent tool action : String)
    (v : GoVal) (params : GoMap) (hA : agentID ≠ "") (hv : unmarshalMap v = some params) :
    ((Evaluate snap agentID tool action params).allow = false →
       (handleToolRequest snap adapters ab ⟨agentID, parentAgent, tool, action, .jsonVal v⟩).response =
         ⟨403, ctJson, .errJson "PolicyViolation" (Evaluate snap agentID tool action params).reason⟩ ∧
       (handleToolRequest snap adapters ab ⟨agentID, parentAgent, tool, action, .jsonVal v⟩).forwards = [] ∧
       ∀ (adapters2 : List (String × String)) (ab2 : AdapterBehavior),
         handleToolRequest snap adapters ab ⟨agentID, parentAgent, tool, action, .jsonVal v⟩ =
           handleToolRequest snap adapters2 ab2 ⟨agentID, parentAgent, tool, action, .jsonVal v⟩) ∧
    ((∃ r, (handleToolRequest snap adapters ab
         ⟨agentID, parentAgent, tool, action, .jsonVal v⟩).response.body =
           .errJson "AdapterNotFound" r) ↔
       (Evaluate snap agentID tool action params).allow = true ∧
         lookupAdapter tool adapters = none) ∧
    ((Evaluate snap agentID tool action params).allow = true →
       lookupAdapter tool adapters = none →
       (handleToolRequest snap adapters ab ⟨agentID, parentAgent, tool, action, .jsonVal v⟩).response =
         ⟨404, ctJson, .errJson "AdapterNotFound" ("No adapter configured for tool: " ++ tool)⟩) := by
  have hrun : ∀ (ad : List (String × String)) (b : AdapterBehavior),
      handleToolRequest snap ad b ⟨agentID, parentAgent, tool, action, .jsonVal v⟩ =
        processParams snap ad b agentID parentAgent tool action params := by
    intro ad b
    simp [handleToolRequest, hA, hv]
  cases hall : (Evaluate snap agentID tool action params).allow
  · refine ⟨fun _ => ⟨?_, ?_, ?_⟩, ?_, fun h _ => absurd h (by decide)⟩
    · rw [hrun]
      simp [processParams, hall]
    · rw [hrun]
      simp [processParams, hall]
    · intro adapters2 ab2
      rw [hrun, hrun]
      simp [processParams, hall]
    · rw [hrun]
      simp [processParams, hall]
  · refine ⟨fun h => absurd h (by decide), ?_, ?_⟩
    · rw [hrun]
      cases hlk : lookupAdapter tool adapters
      · simp [processParams, hall, hlk]
      · cases ab <;> simp [processParams, hall, hlk]
    · intro _ hlk
      rw [hrun]
      simp [processParams, hall, hlk]

/-- Witness for C4: with the test policy, an unknown tool yields a 403
with no forwarding (not 404), and an allowed tool absent from the adapter
map yields the 404 AdapterNotFound response. -/
theorem C4_policy_precedes_adapter_witness :
    (handleToolRequest [("test-policy.yaml", polAllowV 1)] [] (.reply 200)
        ⟨"finance-agent", "", "unknown-tool", "create", .jsonVal (.vmap [])⟩).response =
      ⟨403, ctJson, .errJson "PolicyViolation"
        "No policy found for agent=finance-agent, tool=unknown-tool, action=create"⟩ ∧
    (handleToolRequest [("test-policy.yaml", polAllowV 1)] [] (.reply 200)
        ⟨"finance-agent", "", "unknown-tool", "create", .jsonVal (.vmap [])⟩).forwards = [] ∧
    (handleToolRequest [("test-policy.yaml", polAllowV 1)] [] (.reply 200)
        ⟨"finance-agent", "", "payments", "create", .jsonVal (.vmap [])⟩).response =
      ⟨404, ctJson, .errJson "AdapterNotFound" "No adapter configured for tool: payments"⟩ := by
  have h1 := C4_policy_precedes_adapter [("test-policy.yaml", polAllowV 1)] [] (.reply 200)
    "finance-agent" "" "unknown-tool" "create" (.vmap []) (.entries []) (by decide) rfl
  have h2 := C4_policy_precedes_adapter [("test-policy.yaml", polAllowV 1)] [] (.reply 200)
    "finance-agent" "" "payments" "create" (.vmap []) (.entries []) (by decide) rfl
  have hd1 := h1.1 (by decide)
  refine ⟨?_, hd1.2.1, h2.2.2 (by decide) rfl⟩
  rw [hd1.1]
  rfl

/-! ### Claim C6 -/

theorem processParams_response_shape (snap : Snapshot) (adapters : List (String × String))
    (ab : AdapterBehavior) (agentID parentAgent tool action : String) (params : GoMap) :
    (processParams snap adapters ab agentID parentAgent tool action params).response.contentType =
      "application/json" ∧
    ((∃ e r, (processParams snap adapters ab agentID parentAgent tool action
        params).response.body = .errJson e r) ∨
      (processParams snap adapters ab agentID parentAgent tool action params).response.body =
        .relayed) := by
  simp only [processParams]
  split
  · exact ⟨rfl, Or.inl ⟨_, _, rfl⟩⟩
  · split
    · exact ⟨rfl, Or.inl ⟨_, _, rfl⟩⟩
    · cases ab
      · exact ⟨rfl, Or.inl ⟨_, _, rfl⟩⟩
      · exact ⟨rfl, Or.inl ⟨_, _, rfl⟩⟩
      · exact ⟨rfl, Or.inr rfl⟩

theorem handleToolRequest_response_shape (snap : Snapshot) (adapters : List (String × String))
    (ab : AdapterBehavior) (req : Request) :
    (handleToolRequest snap adapters ab req).response.contentType = "application/json" ∧
    ((∃ e r, (handleToolRequest snap adapters ab req).response.body = .errJson e r) ∨
      (handleToolRequest snap adapters ab req).response.body = .relayed) := by
  unfold handleToolRequest
  split
  · exact ⟨rfl, Or.inl ⟨_, _, rfl⟩⟩
  · split
    · exact ⟨rfl, Or.inl ⟨_, _, rfl⟩⟩
    · exact ⟨rfl, Or.inl ⟨_, _, rfl⟩⟩
    · split
      · exact ⟨rfl, Or.inl ⟨_, _, rfl⟩⟩
      · exact processParams_response_shape _ _ _ _ _ _ _ _

/-- C6 counterexample: the 500 response of `POST /policies/reload` on a
failed reload is written by `http.Error`: its Content-Type is
`text/plain; charset=utf-8`, not `application/json`, and its body is a
hand-built string whose second key is `message`, not a
`\x7berror, reason\x7d` object. -/
theorem C6_counterexample :
    (handle_reload (some "simulated reload failure")).status = 500 ∧
    (handle_reload (some "simulated reload failure")).contentType ≠ "application/json" ∧
    ∀ e r, (handle_reload (some "simulated reload failure")).body ≠ .errJson e r := by
  exact ⟨rfl, by decide, fun e r h => RespBody.noConfusion h⟩

/-- C6 amended: every error response generated by the tool-call handler is
a JSON `\x7berror, reason\x7d` object served as `application/json` (a
status ≥ 400 otherwise only arises by relaying the adapter's own
response verbatim), and the health and reload-success responses are JSON;
but the reload-failure 500 is served by `http.Error` as
`text/plain; charset=utf-8` with a hand-built `message` field. -/
theorem C6_wire_error_format (snap : Snapshot) (adapters : List (String × String))
    (ab : AdapterBehavior) (req : Request) :
    ((handleToolRequest snap adapters ab req).response.status ≥ 400 →
       (handleToolRequest snap adapters ab req).response.body = .relayed ∨
       ((handleToolRequest snap adapters ab req).response.contentType = "application/json" ∧
         ∃ e r, (handleToolRequest snap adapters ab req).response.body = .errJson e r)) ∧
    handle_health = ⟨200, "application/json", .statusJson "healthy"⟩ ∧
    handle_reload none = ⟨200, "application/json", .statusJson "reloaded"⟩ ∧
    (∀ msg, handle_reload (some msg) =
       ⟨500, "text/plain; charset=utf-8",
        .text ("\x7b\"error\":\"ReloadFailed\",\"message\":\"" ++ msg ++ "\"\x7d\n")⟩) := by
  refine ⟨fun _ => ?_, rfl, rfl, fun msg => rfl⟩
  obtain ⟨hct, hbody | hbody⟩ := handleToolRequest_response_shape snap adapters ab req
  · exact Or.inr ⟨hct, hbody⟩
  · exact Or.inl hbody

/-- Witness for C6 amended: the MissingHeader 400 response is a JSON error
object with `application/json` Content-Type. -/
theorem C6_wire_error_format_witness :
    (handleToolRequest [] [] (.reply 200)
        ⟨"", "", "payments", "create", .jsonVal (.vmap [])⟩).response.body = .relayed ∨
    ((handleToolRequest [] [] (.reply 200)
        ⟨"", "", "payments", "create", .jsonVal (.vmap [])⟩).response.contentType =
      "application/json" ∧
     ∃ e r, (handleToolRequest [] [] (.reply 200)
        ⟨"", "", "payments", "create", .jsonVal (.vmap [])⟩).response.body = .errJson e r) := by
  exact (C6_wire_error_format [] [] (.reply 200)
    ⟨"", "", "payments", "create", .jsonVal (.vmap [])⟩).1 (by decide)

/-! ### Claim C7 -/

/-- C7: the first matching (agent, tool, action) permission in snapshot
order is terminal: when its conditions yield a non-empty reason the
evaluator returns `allow=false` with that reason and the matched policy's
version no matter what later files follow; and when no permission matches
at all the evaluator returns `allow=false`, the
`No policy found for agent=<a>, tool=<t>, action=<x>` reason, and
version 0 (the Go zero value). -/
theorem C7_first_match_terminal (snap : Snapshot) (agentID tool action : String)
    (params : GoMap) :
    (∀ (post : Snapshot) (ver : Int) (perm : Permission),
       firstMatch snap agentID tool action = some (ver, perm) →
       check_conditions perm.conditions params ≠ "" →
       Evaluate (snap ++ post) agentID tool action params =
         ⟨false, check_conditions perm.conditions params, ver⟩) ∧
    (firstMatch snap agentID tool action = none →
       Evaluate snap agentID tool action params =
         ⟨false, "No policy found for agent=" ++ agentID ++ ", tool=" ++ tool ++
           ", action=" ++ action, 0⟩) := by
  constructor
  · intro post ver perm hfm hcc
    induction snap with
    | nil => exact absurd hfm (by simp [firstMatch])
    | cons f rest ih =>
      obtain ⟨fn, pol⟩ := f
      simp only [firstMatch] at hfm
      cases hfp : findPermInAgents pol.agents agentID tool action with
      | some perm2 =>
        rw [hfp] at hfm
        simp only [Option.some.injEq, Prod.mk.injEq] at hfm
        obtain ⟨hv, hp⟩ := hfm
        subst hv
        subst hp
        simp only [List.cons_append, Evaluate, hfp]
        simp [hcc]
      | none =>
        rw [hfp] at hfm
        simp only [List.cons_append, Evaluate, hfp]
        exact ih hfm
  · intro hfm
    induction snap with
    | nil => simp [Evaluate, noPolicyReason]
    | cons f rest ih =>
      obtain ⟨fn, pol⟩ := f
      simp only [firstMatch] at hfm
      cases hfp : findPermInAgents pol.agents agentID tool action with
      | some perm2 => rw [hfp] at hfm; exact absurd hfm (by simp)
      | none =>
        rw [hfp] at hfm
        simp only [Evaluate, hfp]
        exact ih hfm

/-- Witness for C7: a failing `max_amount` condition in the first file
denies with that file's version 3 even though a later file would allow,
and the empty snapshot yields the no-policy decision. -/
theorem C7_first_match_terminal_witness :
    Evaluate ([("a.yaml", ⟨3, [⟨"finance-agent",
          [⟨"payments", ["create"], [("max_amount", .vint 5000)]⟩]⟩]⟩)] ++
        [("b.yaml", ⟨9, [⟨"finance-agent", [⟨"payments", ["create"], []⟩]⟩]⟩)])
        "finance-agent" "payments" "create" (.entries [("amount", .vfloat 10000)]) =
      ⟨false, "Amount 10000.00 exceeds max_amount=5000.00", 3⟩ ∧
    Evaluate [] "finance-agent" "payments" "create" (.entries []) =
      ⟨false, "No policy found for agent=finance-agent, tool=payments, action=create", 0⟩ := by
  constructor
  · have h := (C7_first_match_terminal
      [("a.yaml", ⟨3, [⟨"finance-agent",
        [⟨"payments", ["create"], [("max_amount", .vint 5000)]⟩]⟩]⟩)]
      "finance-agent" "payments" "create" (.entries [("amount", .vfloat 10000)])).1
      [("b.yaml", ⟨9, [⟨"finance-agent", [⟨"payments", ["create"], []⟩]⟩]⟩)]
      3 ⟨"payments", ["create"], [("max_amount", .vint 5000)]⟩ rfl (by decide)
    rw [h]
    decide
  · have h := (C7_first_match_terminal [] "finance-agent" "payments" "create"
      (.entries [])).2 rfl
    rw [h]
    decide

/-! ### Claim C1 -/

/-- C1 counterexample: the same two-file snapshot, enumerated in the two
orders a Go map range may produce, yields different Decisions for the same
arguments (the two files carry versions 1 and 2 for the same
(agent, tool, action)), so `Evaluate` is not deterministic given the
snapshot alone. -/
theorem C1_counterexample :
    List.Perm [("a.yaml", polAllowV 1), ("b.yaml", polAllowV 2)]
      [("b.yaml", polAllowV 2), ("a.yaml", polAllowV 1)] ∧
    Evaluate [("a.yaml", polAllowV 1), ("b.yaml", polAllowV 2)]
        "finance-agent" "payments" "create" (.entries []) ≠
      Evaluate [("b.yaml", polAllowV 2), ("a.yaml", polAllowV 1)]
        "finance-agent" "payments" "create" (.entries []) := by
  exact ⟨List.Perm.swap _ _ _, by decide⟩

/-- C1 amended: `Evaluate` is a pure function of the snapshot enumeration,
and its Decision is independent of the enumeration order whenever at most
one loaded file contains a permission matching the requested
(agent, tool, action); when several files match, different map iteration
orders may yield different Decisions. -/
theorem C1_deterministic_single_match (s1 s2 : Snapshot)
    (agentID tool action : String) (params : GoMap)
    (hperm : s1.Perm s2) (hcount : countMatches s1 agentID tool action ≤ 1) :
    Evaluate s1 agentID tool action params = Evaluate s2 agentID tool action params := by
  revert hcount
  induction hperm with
  | nil => exact fun _ => rfl
  | cons f p ih =>
    intro hc
    obtain ⟨fn, pol⟩ := f
    simp only [Evaluate]
    cases hfp : findPermInAgents pol.agents agentID tool action with
    | some perm => simp [hfp]
    | none =>
      simp only [hfp]
      apply ih
      simpa [countMatches, List.countP_cons, fileMatches, hfp] using hc
  | swap x y l =>
    intro hc
    obtain ⟨fnx, polx⟩ := x
    obtain ⟨fny, poly⟩ := y
    cases hfy : findPermInAgents poly.agents agentID tool action with
    | some permy =>
      cases hfx : findPermInAgents polx.agents agentID tool action with
      | some permx =>
        exact absurd hc (by
          simp [countMatches, List.countP_cons, fileMatches, hfx, hfy])
      | none => simp [Evaluate, hfx, hfy]
    | none => simp [Evaluate, hfy]
  | trans p1 p2 ih1 ih2 =>
    intro hc
    have hc2 := hc
    rw [show countMatches _ agentID tool action =
        countMatches _ agentID tool action from
      List.Perm.countP_eq _ p1] at hc2
    exact (ih1 hc).trans (ih2 hc2)

/-- Witness for C1 amended: with only one of the two files matching the
requested (agent, tool, action), the two enumeration orders agree. -/
theorem C1_deterministic_single_match_witness :
    countMatches [("a.yaml", polAllowV 1),
        ("c.yaml", ⟨7, [⟨"hr-agent", [⟨"files", ["read"], []⟩]⟩]⟩)]
      "finance-agent" "payments" "create" ≤ 1 ∧
    Evaluate [("a.yaml", polAllowV 1),
        ("c.yaml", ⟨7, [⟨"hr-agent", [⟨"files", ["read"], []⟩]⟩]⟩)]
        "finance-agent" "payments" "create" (.entries []) =
      Evaluate [("c.yaml", ⟨7, [⟨"hr-agent", [⟨"files", ["read"], []⟩]⟩]⟩),
        ("a.yaml", polAllowV 1)]
        "finance-agent" "payments" "create" (.entries []) := by
  exact ⟨by decide,
    C1_deterministic_single_match _ _ _ _ _ _ (List.Perm.swap _ _ _) (by decide)⟩

/-! ### Claim C5 -/

theorem canonEntries_eq_map (l : List (String × GoVal)) :
    canonEntries l = l.map (fun kv => (kv.1, canon kv.2)) := by
  induction l with
  | nil => rfl
  | cons kv rest ih =>
    obtain ⟨k, v⟩ := kv
    simp [canonEntries, ih]

theorem pairwise_keyLt_of_keyLe_nodup {l : List (String × GoVal)}
    (h1 : List.Pairwise keyLe l)
    (h2 : List.Pairwise (fun a b : String × GoVal => a.1 ≠ b.1) l) :
    List.Pairwise keyLt l := by
  induction l with
  | nil => exact List.Pairwise.nil
  | cons a t ih =>
    rw [List.pairwise_cons] at h1 h2 ⊢
    exact ⟨fun b hb => lt_of_le_of_ne (h1.1 b hb) (h2.1 b hb), ih h1.2 h2.2⟩

theorem sortKeys_eq_of_perm {l1 l2 : List (String × GoVal)} (hp : l1.Perm l2)
    (hn : (l1.map Prod.fst).Nodup) : sortKeys l1 = sortKeys l2 := by
  have hn2 : (l2.map Prod.fst).Nodup := ((hp.map Prod.fst).nodup_iff).mp hn
  have hps1 : (sortKeys l1).Perm l1 := List.perm_insertionSort keyLe l1
  have hps2 : (sortKeys l2).Perm l2 := List.perm_insertionSort keyLe l2
  have hperm : (sortKeys l1).Perm (sortKeys l2) := hps1.trans (hp.trans hps2.symm)
  have hns1 : ((sortKeys l1).map Prod.fst).Nodup := ((hps1.map Prod.fst).nodup_iff).mpr hn
  have hns2 : ((sortKeys l2).map Prod.fst).Nodup := ((hps2.map Prod.fst).nodup_iff).mpr hn2
  have hlt1 : List.Pairwise keyLt (sortKeys l1) :=
    pairwise_keyLt_of_keyLe_nodup (List.sorted_insertionSort keyLe l1)
      (List.pairwise_map.mp hns1)
  have hlt2 : List.Pairwise keyLt (sortKeys l2) :=
    pairwise_keyLt_of_keyLe_nodup (List.sorted_insertionSort keyLe l2)
      (List.pairwise_map.mp hns2)
  exact List.eq_of_perm_of_sorted hperm hlt1 hlt2

theorem HashParams_congr {p q : GoMap} (h : ParamsEqv p q) : HashParams p = HashParams q := by
  unfold HashParams Marshal
  unfold ParamsEqv at h
  rw [h]

theorem ParamsEqv_of_perm (l1 l2 : List (String × GoVal)) (hp : l1.Perm l2)
    (hn : (l1.map Prod.fst).Nodup) : ParamsEqv (.entries l1) (.entries l2) := by
  show canon (.vmap l1) = canon (.vmap l2)
  have hmap : ∀ l : List (String × GoVal),
      (l.map (fun kv : String × GoVal => (kv.1, canon kv.2))).map Prod.fst =
        l.map Prod.fst := by
    intro l
    rw [List.map_map]
    rfl
  simp only [canon]
  congr 1
  apply sortKeys_eq_of_perm
  · rw [canonEntries_eq_map, canonEntries_eq_map]
    exact hp.map _
  · rw [canonEntries_eq_map, hmap]
    exact hn

theorem HashParams_perm (l1 l2 : List (String × GoVal)) (hp : l1.Perm l2)
    (hn : (l1.map Prod.fst).Nodup) :
    HashParams (.entries l1) = HashParams (.entries l2) :=
  HashParams_congr (ParamsEqv_of_perm l1 l2 hp hn)

theorem hexString_length (bytes : List Nat) : (hexString bytes).length = 2 * bytes.length := by
  show (bytes.flatMap byteHexChars).length = 2 * bytes.length
  induction bytes with
  | nil => rfl
  | cons b rest ih =>
    simp only [List.flatMap_cons, List.length_append, List.length_cons, ih, byteHexChars]
    simp
    omega

theorem HashParams_length (p : GoMap) : (HashParams p).length = 64 := by
  unfold HashParams sha256hex
  have h32 : (digestBytes (shaState (utf8Bytes (Marshal (goMapVal p))))).length = 32 := rfl
  rw [hexString_length, h32]

theorem digitChar_mem_hexAlphabet (k : Nat) (hk : k < 16) :
    Nat.digitChar k ∈ hexAlphabet := by
  interval_cases k <;> decide

theorem hexString_chars (bytes : List Nat) : ∀ c ∈ (hexString bytes).data, c ∈ hexAlphabet := by
  intro c hc
  change c ∈ bytes.flatMap byteHexChars at hc
  rw [List.mem_flatMap] at hc
  obtain ⟨b, _, hcb⟩ := hc
  simp only [byteHexChars, List.mem_cons, List.not_mem_nil, or_false] at hcb
  rcases hcb with h | h <;> subst h <;> exact digitChar_mem_hexAlphabet _ (by omega)

theorem allLt_processChunk (s : Hash8) (c : List Nat) : AllLt32 (processChunk s c) := by
  refine ⟨?_, ?_, ?_, ?_, ?_, ?_, ?_, ?_⟩ <;>
    exact Nat.mod_lt _ (by norm_num [w32])

theorem allLt_foldl (cs : List (List Nat)) (s : Hash8) (hs : AllLt32 s) :
    AllLt32 (cs.foldl processChunk s) := by
  induction cs generalizing s with
  | nil => exact hs
  | cons c rest ih => exact ih _ (allLt_processChunk s c)

theorem h0w_lt (p : Nat) : h0w p < w32 :=
  Nat.mod_lt _ (by norm_num [w32])

theorem allLt_initState : AllLt32 initState :=
  ⟨h0w_lt 2, h0w_lt 3, h0w_lt 5, h0w_lt 7, h0w_lt 11, h0w_lt 13, h0w_lt 17, h0w_lt 19⟩

theorem allLt_shaState (msg : List Nat) : AllLt32 (shaState msg) :=
  allLt_foldl _ _ allLt_initState

theorem base_step (x y n W : Nat) (hx : x < n) (hy : y < W) : x * W + y < n * W := by
  have h1 : x * W + y < x * W + W := Nat.add_lt_add_left hy _
  have h2 : x * W + W = (x + 1) * W := (Nat.succ_mul x W).symm
  have h3 : (x + 1) * W ≤ n * W := Nat.mul_le_mul_right W hx
  omega

theorem digestNat_lt (s : Hash8) (h : AllLt32 s) : digestNat s < w32 ^ 8 := by
  obtain ⟨h1, h2, h3, h4, h5, h6, h7, h8⟩ := h
  have e1 : s.a * w32 + s.b < w32 ^ 2 := by
    have := base_step s.a s.b w32 w32 h1 h2
    rwa [pow_two]
  have e2 : (s.a * w32 + s.b) * w32 + s.c < w32 ^ 3 := by
    have := base_step _ s.c (w32 ^ 2) w32 e1 h3
    rwa [← pow_succ] at this
  have e3 : ((s.a * w32 + s.b) * w32 + s.c) * w32 + s.d < w32 ^ 4 := by
    have := base_step _ s.d (w32 ^ 3) w32 e2 h4
    rwa [← pow_succ] at this
  have e4 : (((s.a * w32 + s.b) * w32 + s.c) * w32 + s.d) * w32 + s.e < w32 ^ 5 := by
    have := base_step _ s.e (w32 ^ 4) w32 e3 h5
    rwa [← pow_succ] at this
  have e5 : ((((s.a * w32 + s.b) * w32 + s.c) * w32 + s.d) * w32 + s.e) * w32 + s.f <
      w32 ^ 6 := by
    have := base_step _ s.f (w32 ^ 5) w32 e4 h6
    rwa [← pow_succ] at this
  have e6 : (((((s.a * w32 + s.b) * w32 + s.c) * w32 + s.d) * w32 + s.e) * w32 + s.f) * w32 +
      s.g < w32 ^ 7 := by
    have := base_step _ s.g (w32 ^ 6) w32 e5 h7
    rwa [← pow_succ] at this
  have e7 := base_step _ s.h (w32 ^ 7) w32 e6 h8
  rw [← pow_succ] at e7
  exact e7

theorem digestNat_inj (s t : Hash8) (hs : AllLt32 s) (ht : AllLt32 t)
    (he : digestNat s = digestNat t) : s = t := by
  obtain ⟨a1, b1, c1, d1, e1, f1, g1, h1⟩ := s
  obtain ⟨a2, b2, c2, d2, e2, f2, g2, h2⟩ := t
  simp only [AllLt32, w32] at hs ht
  simp only [digestNat, w32] at he
  simp only [Hash8.mk.injEq]
  omega

/-- C5 counterexample: the claimed equivalence fails in the
hash-determines-params direction: the params maps form an infinite family
of pairwise non-deep-equal values while SHA-256 digests range over a
finite set, so two non-equal maps share a digest. -/
theorem C5_counterexample :
    ¬ ∀ p q : GoMap, HashParams p = HashParams q ↔ ParamsEqv p q := by
  intro hiff
  have hFin : ∀ n : Nat,
      digestNat (shaState (utf8Bytes (Marshal (goMapVal (strParams n))))) < w32 ^ 8 :=
    fun n => digestNat_lt _ (allLt_shaState _)
  obtain ⟨n, m, hnm, hEq⟩ := Finite.exists_ne_map_eq_of_infinite
    (fun n : Nat =>
      (⟨digestNat (shaState (utf8Bytes (Marshal (goMapVal (strParams n))))), hFin n⟩ :
        Fin (w32 ^ 8)))
  have hdig : digestNat (shaState (utf8Bytes (Marshal (goMapVal (strParams n))))) =
      digestNat (shaState (utf8Bytes (Marshal (goMapVal (strParams m))))) := by
    simpa [Fin.mk.injEq] using hEq
  have hstate := digestNat_inj _ _ (allLt_shaState _) (allLt_shaState _) hdig
  have hhash : HashParams (strParams n) = HashParams (strParams m) := by
    unfold HashParams sha256hex
    rw [hstate]
  have heqv := (hiff _ _).mp hhash
  unfold ParamsEqv strParams goMapVal at heqv
  simp only [canon, canonEntries, sortKeys, List.insertionSort, List.orderedInsert,
    GoVal.vmap.injEq, List.cons.injEq, Prod.mk.injEq, GoVal.vstr.injEq, and_true,
    true_and] at heqv
  have hlen := congrArg (fun s : String => s.data.length) heqv
  simp only [List.length_replicate] at hlen
  exact hnm hlen

/-- C5 amended: deep-equal params maps always hash to the same digest, the
digest is always exactly 64 characters drawn from the lowercase hex
alphabet, and the digest is independent of the key insertion order of the
map; however equal digests do not imply deep-equal params (the converse
fails by pigeonhole since SHA-256 has finite range, see the
counterexample), so the "if and only if" must be weakened to "if". -/
theorem C5_hash_params_spec (p q : GoMap) (l1 l2 : List (String × GoVal))
    (hpq : ParamsEqv p q) (hperm : l1.Perm l2) (hnd : (l1.map Prod.fst).Nodup) :
    HashParams p = HashParams q ∧
    (∀ r : GoMap, (HashParams r).length = 64 ∧
       ∀ c ∈ (HashParams r).data, c ∈ hexAlphabet) ∧
    HashParams (.entries l1) = HashParams (.entries l2) := by
  refine ⟨HashParams_congr hpq, fun r => ⟨HashParams_length r, ?_⟩,
    HashParams_perm l1 l2 hperm hnd⟩
  exact hexString_chars _

/-- Witness for C5 amended: two concrete deep-equal maps written with the
keys in opposite insertion orders hash identically. -/
theorem C5_hash_params_spec_witness :
    ParamsEqv (.entries [("currency", .vstr "USD"), ("amount", .vfloat 1000)])
      (.entries [("amount", .vfloat 1000), ("currency", .vstr "USD")]) ∧
    ([("currency", GoVal.vstr "USD"), ("amount", GoVal.vfloat 1000)].map Prod.fst).Nodup ∧
    HashParams (.entries [("currency", .vstr "USD"), ("amount", .vfloat 1000)]) =
      HashParams (.entries [("amount", .vfloat 1000), ("currency", .vstr "USD")]) := by
  have heqv : ParamsEqv (.entries [("currency", .vstr "USD"), ("amount", .vfloat 1000)])
      (.entries [("amount", .vfloat 1000), ("currency", .vstr "USD")]) :=
    ParamsEqv_of_perm _ _ (List.Perm.swap _ _ _) (by decide)
  refine ⟨heqv, by decide, ?_⟩
  exact (C5_hash_params_spec
    (.entries [("currency", .vstr "USD"), ("amount", .vfloat 1000)])
    (.entries [("amount", .vfloat 1000), ("currency", .vstr "USD")])
    [("currency", .vstr "USD"), ("amount", .vfloat 1000)]
    [("amount", .vfloat 1000), ("currency", .vstr "USD")]
    heqv (List.Perm.swap _ _ _) (by decide)).1

end Aegis
